import Mathlib

/-!
Shallow embedding of the window-normalization pipeline of
`src/app_boundary.py` (the "Window Normalizer" of the specification).

The pipeline (source lines 26-64):
  * validate that the schema contains `window_start`, `window_end` and the
    chosen flag column, halting with an error otherwise (lines 26-34);
  * parse both timestamp columns with `pd.to_datetime(..., errors="coerce",
    utc=True)` and drop every row where either parse failed (lines 38-41);
  * sort the surviving rows by `window_start` ascending (line 42);
  * derive the `_observed` boolean from the flag column, negating it when
    the column is `is_outside_observation` (lines 45-48);
  * summary counts `total / observed_n / outside_n` (lines 51-53);
  * epoch `t0 = min(window_start)` and per-row offsets
    `x0 = (window_start - t0).total_seconds()`,
    `x1 = (window_end - t0).total_seconds()`,
    `w = clip(x1 - x0, lower=0)` (lines 61-64).

Timestamps are modelled as integer seconds since the Unix epoch, so the
offsets produced by `total_seconds()` are whole numbers of seconds and the
float arithmetic of the source on them is exact; offsets are therefore
modelled as integers.
-/

namespace AppBoundary

/-- Value of a digit character, `none` for a non-digit.  Models the character
level of the pandas ISO-8601 timestamp parsing. -/
def digitVal (c : Char) : Option ℕ :=
  if c.isDigit then some (c.toNat - 48) else none

/-- Two-digit decimal field of an ISO-8601 timestamp string. -/
def read2 (a b : Char) : Option ℕ := do
  let x ← digitVal a
  let y ← digitVal b
  pure (10 * x + y)

/-- Four-digit decimal field (the year) of an ISO-8601 timestamp string. -/
def read4 (a b c d : Char) : Option ℕ := do
  let x ← digitVal a
  let y ← digitVal b
  let z ← digitVal c
  let u ← digitVal d
  pure (1000 * x + 100 * y + 10 * z + u)

/-- Gregorian leap-year predicate. -/
def isLeap (y : ℕ) : Bool :=
  (y % 4 == 0 && y % 100 != 0) || (y % 400 == 0)

/-- Number of days of month `m` of year `y`. -/
def daysInMonth (y m : ℕ) : ℕ :=
  if m = 2 then (if isLeap y then 29 else 28)
  else if m = 4 ∨ m = 6 ∨ m = 9 ∨ m = 11 then 30
  else 31

/-- Days elapsed from 1970-01-01 to the civil date `y-m-d` (negative before
the epoch); the standard civil-from-days conversion used by timestamp
libraries. -/
def daysFromCivil (y m d : ℤ) : ℤ :=
  let yy := if m ≤ 2 then y - 1 else y
  let era := Int.fdiv yy 400
  let yoe := yy - era * 400
  let mp := Int.fmod (m + 9) 12
  let doy := Int.fdiv (153 * mp + 2) 5 + d - 1
  let doe := yoe * 365 + Int.fdiv yoe 4 - Int.fdiv yoe 100 + doy
  era * 146097 + doe - 719468

/-- Model of `pd.to_datetime(value, errors="coerce", utc=True)` (source lines
38-39) on the ISO-8601 UTC format `YYYY-MM-DDTHH:MM:SSZ` used by the input
files: the result is seconds since the Unix epoch, and `none` (pandas `NaT`)
on any string not of that shape, such as the empty string. -/
def toDatetime (s : String) : Option ℤ :=
  match s.toList with
  | [y1, y2, y3, y4, c1, m1, m2, c2, d1, d2, ct, h1, h2, c3, n1, n2, c4, s1, s2, cz] =>
    if c1 = '-' ∧ c2 = '-' ∧ ct = 'T' ∧ c3 = ':' ∧ c4 = ':' ∧ cz = 'Z' then do
      let y ← read4 y1 y2 y3 y4
      let mo ← read2 m1 m2
      let da ← read2 d1 d2
      let h ← read2 h1 h2
      let mi ← read2 n1 n2
      let se ← read2 s1 s2
      if 1 ≤ mo ∧ mo ≤ 12 ∧ 1 ≤ da ∧ da ≤ daysInMonth y mo ∧ h ≤ 23 ∧ mi ≤ 59 ∧ se ≤ 59 then
        some (daysFromCivil (y : ℤ) (mo : ℤ) (da : ℤ) * 86400 + ((h : ℤ) * 3600 + (mi : ℤ) * 60 + (se : ℤ)))
      else none
    else none
  | _ => none

/-- Cell value of the observation-flag column.  `nanVal` is a missing float
entry (pandas `NaN`); `boolean` and `intval` are the native boolean / numeric
representations. -/
inductive FlagValue where
  | boolean (b : Bool)
  | intval (n : ℤ)
  | nanVal
  deriving DecidableEq, Repr

/-- Model of `Series.astype(bool)` applied to the flag column (source lines
46 and 48): native booleans are kept, numbers are nonzero-tested, and a
float `NaN` coerces to `True` (Python `bool(nan) = True`). -/
def astype_bool : FlagValue → Bool
  | .boolean b => b
  | .intval n => decide (n ≠ 0)
  | .nanVal => true

/-- Raw input record: the two timestamp strings plus the cell of the chosen
flag column. -/
structure RawRow where
  window_start : String
  window_end : String
  flag : FlagValue
  deriving DecidableEq, Repr

/-- Raw input table: the schema (column names) and the rows. -/
structure RawTable where
  cols : List String
  rows : List RawRow
  deriving DecidableEq, Repr

/-- Row surviving timestamp parsing: both timestamps as seconds since epoch. -/
structure ParsedRow where
  window_start : ℤ
  window_end : ℤ
  flag : FlagValue
  deriving DecidableEq, Repr

/-- Output record: the parsed timestamps, the original flag cell (the source
dataframe keeps every column), the derived `_observed` boolean and the
offset columns `x0`, `x1`, `w` of source lines 62-64. -/
structure NormalizedRow where
  window_start : ℤ
  window_end : ℤ
  flag : FlagValue
  observed : Bool
  x0 : ℤ
  x1 : ℤ
  w : ℤ
  deriving DecidableEq, Repr

/-- Schema errors of the pipeline: the `st.error` / `st.stop` exits of source
lines 28-30 (required timestamp columns missing) and 32-34 (flag column
missing). -/
inductive NormError where
  | missingColumn (names : List String)
  | missingFlag (name : String)
  deriving DecidableEq, Repr

/-- Result of the pipeline: normalized rows, the epoch `t0` (`none` for an
empty table, pandas `NaT`), and the summary counts of source lines 51-53. -/
structure NormResult where
  rows : List NormalizedRow
  epoch : Option ℤ
  total : ℕ
  observed_n : ℕ
  outside_n : ℕ
  deriving DecidableEq, Repr

/-- Required timestamp columns absent from the schema: source line 27,
`missing = required_cols - set(df.columns)`. -/
def requiredMissing (cols : List String) : List String :=
  (["window_start", "window_end"]).filter (fun c => decide (c ∉ cols))

/-- Parse the timestamps of one row; `none` exactly when the row is removed by
`df.dropna(subset=["window_start", "window_end"])` (source line 41). -/
def parseRow (r : RawRow) : Option ParsedRow := do
  let s ← toDatetime r.window_start
  let e ← toDatetime r.window_end
  pure ⟨s, e, r.flag⟩

/-- Ordering on parsed rows used by `df.sort_values("window_start")`. -/
def startLE (a b : ParsedRow) : Prop := a.window_start ≤ b.window_start

instance : DecidableRel startLE := fun a b => Int.decLe a.window_start b.window_start

instance : IsTotal ParsedRow startLE := ⟨fun a b => Int.le_total a.window_start b.window_start⟩

instance : IsTrans ParsedRow startLE := ⟨fun _ _ _ hab hbc => le_trans hab hbc⟩

/-- Sort by `window_start` ascending, modelling `df.sort_values("window_start")`
(source line 42).  The source relies on the pandas default sort kind
`quicksort`; this embedding fixes one ordering among those consistent with
sortedness and permutation of the input. -/
def sortByStart (l : List ParsedRow) : List ParsedRow := List.insertionSort startLE l

/-- Derived `_observed` boolean (source lines 45-48): the boolean coercion of
the flag cell, negated when the chosen column is `is_outside_observation`. -/
def observedOf (flag_col : String) (v : FlagValue) : Bool :=
  if flag_col = "is_outside_observation" then !(astype_bool v) else astype_bool v

/-- Offset columns of one row (source lines 62-64): `x0` and `x1` are seconds
since the epoch `t0`, and `w = (x1 - x0).clip(lower=0)`. -/
def mkNormalized (flag_col : String) (t0 : ℤ) (r : ParsedRow) : NormalizedRow :=
  let x0 : ℤ := r.window_start - t0
  let x1 : ℤ := r.window_end - t0
  { window_start := r.window_start, window_end := r.window_end, flag := r.flag,
    observed := observedOf flag_col r.flag, x0 := x0, x1 := x1, w := max 0 (x1 - x0) }

/-- Minimum `window_start` over a list of parsed rows, modelling
`df["window_start"].min()` (source line 61); `none` on the empty table. -/
def minStart : List ParsedRow → Option ℤ
  | [] => none
  | r :: rs =>
    some (match minStart rs with
      | none => r.window_start
      | some m => min r.window_start m)

/-- Rows surviving the parse-and-drop of source lines 38-41, in the order
produced by the sort of line 42. -/
def survivors (rows : List RawRow) : List ParsedRow :=
  sortByStart (rows.filterMap parseRow)

/-- Core transform on rows that already passed schema validation: parse and
drop (lines 38-41), sort (line 42), derive `_observed` (lines 45-48), count
(lines 51-53), offsets (lines 61-64). -/
def normCore (flag_col : String) (rows : List RawRow) : NormResult :=
  let sorted := survivors rows
  let total := sorted.length
  let observed_n := (sorted.filter (fun r => observedOf flag_col r.flag)).length
  match minStart sorted with
  | none => ⟨[], none, total, observed_n, total - observed_n⟩
  | some t0 => ⟨sorted.map (mkNormalized flag_col t0), some t0, total, observed_n, total - observed_n⟩

/-- The full `normalize` operation: schema validation (source lines 26-34)
followed by the core transform (source lines 38-64). -/
def normalize (t : RawTable) (flag_col : String) : Except NormError NormResult :=
  if (requiredMissing t.cols).isEmpty = false then
    .error (.missingColumn (requiredMissing t.cols))
  else if flag_col ∈ t.cols then
    .ok (normCore flag_col t.rows)
  else
    .error (.missingFlag flag_col)

/-- Concrete two-row scenario of the specification (§8, property 6). -/
def exTable : RawTable :=
  { cols := ["window_start", "window_end", "is_observed_strict"],
    rows := [⟨"2026-01-20T10:00:00Z", "2026-01-20T10:00:05Z", .boolean true⟩,
             ⟨"2026-01-20T10:00:10Z", "2026-01-20T10:00:08Z", .boolean false⟩] }

/-- C1: on the concrete two-row scenario the pipeline yields epoch
2026-01-20T10:00:00Z, row1 with offsets (0, 5), width 5, observed, row2 with
offsets (10, 8), width clamped to 0, not observed, and summary counts
total 2, observed 1, outside 1. -/
theorem C1_concrete_scenario :
    (normalize exTable "is_observed_strict").toOption.map (fun res =>
        res.rows.map (fun r => (r.x0, r.x1, r.w, r.observed))) =
      some [((0 : ℤ), (5 : ℤ), (5 : ℤ), true), ((10 : ℤ), (8 : ℤ), (0 : ℤ), false)] ∧
    (normalize exTable "is_observed_strict").toOption.map NormResult.epoch =
      some (toDatetime "2026-01-20T10:00:00Z") ∧
    (normalize exTable "is_observed_strict").toOption.map NormResult.total = some 2 ∧
    (normalize exTable "is_observed_strict").toOption.map NormResult.observed_n = some 1 ∧
    (normalize exTable "is_observed_strict").toOption.map NormResult.outside_n = some 1 := by
  refine ⟨by decide, by decide, by decide, by decide, by decide⟩

/-- Projection of `mkNormalized`: the parsed start timestamp is kept. -/
@[simp] theorem mkNormalized_window_start (fc : String) (t0 : ℤ) (r : ParsedRow) :
    (mkNormalized fc t0 r).window_start = r.window_start := rfl

/-- Projection of `mkNormalized`: the parsed end timestamp is kept. -/
@[simp] theorem mkNormalized_window_end (fc : String) (t0 : ℤ) (r : ParsedRow) :
    (mkNormalized fc t0 r).window_end = r.window_end := rfl

/-- Projection of `mkNormalized`: the raw flag cell is kept. -/
@[simp] theorem mkNormalized_flag (fc : String) (t0 : ℤ) (r : ParsedRow) :
    (mkNormalized fc t0 r).flag = r.flag := rfl

/-- Projection of `mkNormalized`: the derived `_observed` boolean. -/
@[simp] theorem mkNormalized_observed (fc : String) (t0 : ℤ) (r : ParsedRow) :
    (mkNormalized fc t0 r).observed = observedOf fc r.flag := rfl

/-- Projection of `mkNormalized`: `x0` is the epoch-relative start offset. -/
@[simp] theorem mkNormalized_x0 (fc : String) (t0 : ℤ) (r : ParsedRow) :
    (mkNormalized fc t0 r).x0 = r.window_start - t0 := rfl

/-- Projection of `mkNormalized`: `x1` is the epoch-relative end offset. -/
@[simp] theorem mkNormalized_x1 (fc : String) (t0 : ℤ) (r : ParsedRow) :
    (mkNormalized fc t0 r).x1 = r.window_end - t0 := rfl

/-- Projection of `mkNormalized`: `w` is the clamped width. -/
@[simp] theorem mkNormalized_w (fc : String) (t0 : ℤ) (r : ParsedRow) :
    (mkNormalized fc t0 r).w = max 0 (r.window_end - t0 - (r.window_start - t0)) := rfl

/-- A successful parse keeps the flag cell of the row unchanged. -/
theorem parseRow_flag {r : RawRow} {p : ParsedRow} (h : parseRow r = some p) :
    p.flag = r.flag := by
  cases hs : toDatetime r.window_start with
  | none => simp [parseRow, hs] at h
  | some s =>
    cases he : toDatetime r.window_end with
    | none => simp [parseRow, hs, he] at h
    | some e =>
      simp [parseRow, hs, he] at h
      subst h
      rfl

/-- A successful parse returns exactly the two parsed timestamps. -/
theorem parseRow_eq_some {r : RawRow} {p : ParsedRow} (h : parseRow r = some p) :
    toDatetime r.window_start = some p.window_start ∧
      toDatetime r.window_end = some p.window_end := by
  cases hs : toDatetime r.window_start with
  | none => simp [parseRow, hs] at h
  | some s =>
    cases he : toDatetime r.window_end with
    | none => simp [parseRow, hs, he] at h
    | some e =>
      simp [parseRow, hs, he] at h
      subst h
      exact ⟨rfl, rfl⟩

/-- A row is removed by the `dropna` of source line 41 exactly when one of
its two timestamps fails to parse. -/
theorem parseRow_eq_none_iff (r : RawRow) :
    parseRow r = none ↔
      toDatetime r.window_start = none ∨ toDatetime r.window_end = none := by
  cases hs : toDatetime r.window_start with
  | none => simp [parseRow, hs]
  | some s =>
    cases he : toDatetime r.window_end with
    | none => simp [parseRow, hs, he]
    | some e => simp [parseRow, hs, he]

/-- The surviving rows are sorted by `window_start`. -/
theorem sorted_survivors (rows : List RawRow) :
    List.Sorted startLE (survivors rows) :=
  List.sorted_insertionSort startLE (rows.filterMap parseRow)

/-- Field lemma: the epoch of the result is the minimum surviving start. -/
theorem normCore_epoch (fc : String) (rows : List RawRow) :
    (normCore fc rows).epoch = minStart (survivors rows) := by
  cases hm : minStart (survivors rows) <;> simp [normCore, hm]

/-- Field lemma: `total` is the number of surviving rows. -/
theorem normCore_total (fc : String) (rows : List RawRow) :
    (normCore fc rows).total = (survivors rows).length := by
  cases hm : minStart (survivors rows) <;> simp [normCore, hm]

/-- Field lemma: `observed_n` counts the surviving rows whose derived
`_observed` boolean is true. -/
theorem normCore_observed_n (fc : String) (rows : List RawRow) :
    (normCore fc rows).observed_n =
      ((survivors rows).filter (fun r => observedOf fc r.flag)).length := by
  cases hm : minStart (survivors rows) <;> simp [normCore, hm]

/-- Field lemma: `outside_n` is the complement count (source line 53). -/
theorem normCore_outside_n (fc : String) (rows : List RawRow) :
    (normCore fc rows).outside_n =
      (normCore fc rows).total - (normCore fc rows).observed_n := by
  cases hm : minStart (survivors rows) <;> simp [normCore, hm]

/-- Field lemma: with no surviving row the output row list is empty. -/
theorem normCore_rows_none {rows : List RawRow} (fc : String)
    (h : minStart (survivors rows) = none) : (normCore fc rows).rows = [] := by
  simp [normCore, h]

/-- Field lemma: with surviving rows the output is their offset image. -/
theorem normCore_rows_some {rows : List RawRow} {t0 : ℤ} (fc : String)
    (h : minStart (survivors rows) = some t0) :
    (normCore fc rows).rows = (survivors rows).map (mkNormalized fc t0) := by
  simp [normCore, h]

/-- Every output row is the offset image of some surviving row, with the
epoch being the minimum surviving start. -/
theorem mem_normCore_rows {fc : String} {rows : List RawRow} {nr : NormalizedRow}
    (h : nr ∈ (normCore fc rows).rows) :
    ∃ t0, minStart (survivors rows) = some t0 ∧
      ∃ r ∈ survivors rows, nr = mkNormalized fc t0 r := by
  cases hm : minStart (survivors rows) with
  | none =>
    rw [normCore_rows_none fc hm] at h
    cases h
  | some t0 =>
    rw [normCore_rows_some fc hm] at h
    obtain ⟨r, hr, hnr⟩ := List.mem_map.mp h
    exact ⟨t0, rfl, r, hr, hnr.symm⟩

/-- A successful `normalize` returns exactly the core transform of the rows. -/
theorem normalize_ok {t : RawTable} {fc : String} {res : NormResult}
    (h : normalize t fc = Except.ok res) : res = normCore fc t.rows := by
  unfold normalize at h
  split at h
  · exact absurd h (by simp)
  · split at h
    · exact (Except.ok.inj h).symm
    · exact absurd h (by simp)

/-- When all three schema checks pass, `normalize` succeeds with the core
transform of the rows. -/
theorem normalize_eq_ok (t : RawTable) (fc : String)
    (hws : "window_start" ∈ t.cols) (hwe : "window_end" ∈ t.cols)
    (hfc : fc ∈ t.cols) :
    normalize t fc = Except.ok (normCore fc t.rows) := by
  have hmiss : requiredMissing t.cols = [] := by
    simp [requiredMissing, hws, hwe]
  simp [normalize, hmiss, hfc]

/-- C2: for every surviving row, `observed` is the negated boolean coercion of
the raw flag cell when the flag column is `is_outside_observation`, and the
plain boolean coercion for every other column name; in particular a raw
`True` yields `observed = False` under `is_outside_observation` and
`observed = True` under any other column. -/
theorem C2_flag_column_semantics (t : RawTable) (fc : String) (res : NormResult)
    (h : normalize t fc = Except.ok res) :
    ∀ nr ∈ res.rows,
      nr.observed =
        (if fc = "is_outside_observation" then !(astype_bool nr.flag)
         else astype_bool nr.flag) ∧
      (nr.flag = FlagValue.boolean true →
        nr.observed = decide (fc ≠ "is_outside_observation")) := by
  intro nr hnr
  rw [normalize_ok h] at hnr
  obtain ⟨t0, _, r, _, rfl⟩ := mem_normCore_rows hnr
  constructor
  · simp [observedOf]
  · intro hb
    simp only [mkNormalized_observed, mkNormalized_flag] at hb ⊢
    rw [hb]
    by_cases hfc : fc = "is_outside_observation" <;> simp [observedOf, hfc, astype_bool]

/-- Witness for C2 on the concrete two-row scenario. -/
theorem C2_flag_column_semantics_witness :
    ((normCore "is_observed_strict" exTable.rows).rows.all (fun nr =>
      decide (nr.observed =
        (if "is_observed_strict" = "is_outside_observation" then !(astype_bool nr.flag)
         else astype_bool nr.flag) ∧
      (nr.flag = FlagValue.boolean true →
        nr.observed = decide ("is_observed_strict" ≠ "is_outside_observation"))))) = true :=
  List.all_eq_true.mpr (fun nr hnr =>
    decide_eq_true (C2_flag_column_semantics exTable "is_observed_strict" _ rfl nr hnr))

/-- C3: the normalized output is sorted ascending by `window_start`, and
consequently `offset_start` (`x0`) is monotonically non-decreasing across
the output sequence. -/
theorem C3_sorted_output (t : RawTable) (fc : String) (res : NormResult)
    (h : normalize t fc = Except.ok res) :
    List.Sorted (fun a b : NormalizedRow => a.window_start ≤ b.window_start) res.rows ∧
    List.Sorted (fun a b : NormalizedRow => a.x0 ≤ b.x0) res.rows := by
  rw [normalize_ok h]
  cases hm : minStart (survivors t.rows) with
  | none =>
    rw [normCore_rows_none fc hm]
    exact ⟨List.sorted_nil, List.sorted_nil⟩
  | some t0 =>
    rw [normCore_rows_some fc hm]
    have hs : List.Pairwise startLE (survivors t.rows) := sorted_survivors t.rows
    constructor
    · exact List.pairwise_map.mpr (hs.imp (fun hab => by simpa using hab))
    · refine List.pairwise_map.mpr (hs.imp (fun hab => ?_))
      simpa using sub_le_sub_right hab t0

/-- Witness for C3 on the concrete two-row scenario. -/
theorem C3_sorted_output_witness :
    List.Sorted (fun a b : NormalizedRow => a.window_start ≤ b.window_start)
      (normCore "is_observed_strict" exTable.rows).rows ∧
    List.Sorted (fun a b : NormalizedRow => a.x0 ≤ b.x0)
      (normCore "is_observed_strict" exTable.rows).rows :=
  C3_sorted_output exTable "is_observed_strict" _ rfl

/-- C4: the width (`duration`) of every surviving row is non-negative, also for
rows whose raw `window_end` precedes `window_start`: the clamp of source
line 64 floors the difference at 0 and such rows are kept. -/
theorem C4_duration_nonneg (t : RawTable) (fc : String) (res : NormResult)
    (h : normalize t fc = Except.ok res) :
    ∀ nr ∈ res.rows, 0 ≤ nr.w := by
  intro nr hnr
  rw [normalize_ok h] at hnr
  obtain ⟨t0, _, r, _, rfl⟩ := mem_normCore_rows hnr
  rw [mkNormalized_w]
  exact le_max_left 0 _

/-- Witness for C4 on the concrete two-row scenario, whose second row has a
raw `window_end` before its `window_start`. -/
theorem C4_duration_nonneg_witness :
    ((normCore "is_observed_strict" exTable.rows).rows.all (fun nr =>
      decide (0 ≤ nr.w))) = true :=
  List.all_eq_true.mpr (fun nr hnr =>
    decide_eq_true (C4_duration_nonneg exTable "is_observed_strict" _ rfl nr hnr))

/-- C5 fails on the code: clamping only affects the width `w` (source line
64), never the end offset `x1`, so the second row of the concrete scenario
has `offset_start = 10 > 8 = offset_end`. -/
theorem C5_counterexample :
    (normalize exTable "is_observed_strict").toOption.map
        (fun res => decide (∀ nr ∈ res.rows, nr.x0 ≤ nr.x1)) = some false := by
  decide

/-- C5 amended: every surviving row satisfies `offset_start ≤ offset_start +
duration` (the clamped bar end); `offset_start ≤ offset_end` itself holds
exactly for the rows whose raw `window_end` is not before `window_start`,
since `x1` is never clamped. -/
theorem C5_amended_clamped_end (t : RawTable) (fc : String) (res : NormResult)
    (h : normalize t fc = Except.ok res) :
    ∀ nr ∈ res.rows,
      nr.x0 ≤ nr.x0 + nr.w ∧
      (nr.window_start ≤ nr.window_end → nr.x0 ≤ nr.x1) := by
  intro nr hnr
  rw [normalize_ok h] at hnr
  obtain ⟨t0, _, r, _, rfl⟩ := mem_normCore_rows hnr
  constructor
  · have : (0 : ℤ) ≤ (mkNormalized fc t0 r).w := by
      rw [mkNormalized_w]
      exact le_max_left 0 _
    linarith
  · intro hle
    simp only [mkNormalized_window_start, mkNormalized_window_end] at hle
    simp only [mkNormalized_x0, mkNormalized_x1]
    exact sub_le_sub_right hle t0

/-- Witness for the amended C5 on the concrete two-row scenario. -/
theorem C5_amended_clamped_end_witness :
    ((normCore "is_observed_strict" exTable.rows).rows.all (fun nr =>
      decide (nr.x0 ≤ nr.x0 + nr.w ∧
        (nr.window_start ≤ nr.window_end → nr.x0 ≤ nr.x1)))) = true :=
  List.all_eq_true.mpr (fun nr hnr =>
    decide_eq_true (C5_amended_clamped_end exTable "is_observed_strict" _ rfl nr hnr))

/-- The minimum start is undefined exactly on the empty table. -/
theorem minStart_eq_none_iff (l : List ParsedRow) : minStart l = none ↔ l = [] := by
  cases l with
  | nil => simp [minStart]
  | cons r rs => simp [minStart]

/-- The minimum start is a lower bound of every surviving start. -/
theorem minStart_le_of_mem {l : List ParsedRow} {m : ℤ} (h : minStart l = some m)
    {r : ParsedRow} (hr : r ∈ l) : m ≤ r.window_start := by
  induction l generalizing m with
  | nil => cases hr
  | cons a rs ih =>
    cases hm : minStart rs with
    | none =>
      have hrs : rs = [] := (minStart_eq_none_iff rs).mp hm
      subst hrs
      simp [minStart] at h
      rcases List.mem_cons.mp hr with hra | hra
      · rw [hra, ← h]
      · cases hra
    | some m2 =>
      simp [minStart, hm] at h
      rcases List.mem_cons.mp hr with hra | hra
      · rw [hra, ← h]
        exact min_le_left _ _
      · calc m ≤ m2 := h ▸ min_le_right _ _
          _ ≤ r.window_start := ih hm hra

/-- The minimum start is attained by some surviving row. -/
theorem minStart_mem {l : List ParsedRow} {m : ℤ} (h : minStart l = some m) :
    ∃ r ∈ l, r.window_start = m := by
  induction l generalizing m with
  | nil => simp [minStart] at h
  | cons a rs ih =>
    cases hm : minStart rs with
    | none =>
      simp [minStart, hm] at h
      exact ⟨a, List.mem_cons_self a rs, h⟩
    | some m2 =>
      simp [minStart, hm] at h
      rcases le_total a.window_start m2 with hle | hle
      · refine ⟨a, List.mem_cons_self a rs, ?_⟩
        rw [← h, min_eq_left hle]
      · obtain ⟨r, hr, hrm⟩ := ih hm
        refine ⟨r, List.mem_cons_of_mem a hr, ?_⟩
        rw [hrm, ← h, min_eq_right hle]

/-- C9: on a non-empty normalized output every `offset_start` is
non-negative, the epoch being the minimum surviving `window_start`, and the
first row of the sorted output has `offset_start = 0`. -/
theorem C9_offsets_nonneg (t : RawTable) (fc : String) (res : NormResult)
    (h : normalize t fc = Except.ok res) (hne : res.rows ≠ []) :
    (∀ nr ∈ res.rows, 0 ≤ nr.x0) ∧
    (∃ hd, res.rows.head? = some hd ∧ hd.x0 = 0) := by
  rw [normalize_ok h] at hne ⊢
  cases hm : minStart (survivors t.rows) with
  | none => exact absurd (normCore_rows_none fc hm) hne
  | some t0 =>
    rw [normCore_rows_some fc hm]
    constructor
    · intro nr hnr
      obtain ⟨r, hr, rfl⟩ := List.mem_map.mp hnr
      rw [mkNormalized_x0]
      have := minStart_le_of_mem hm hr
      omega
    · cases hsv : survivors t.rows with
      | nil => rw [hsv] at hm; simp [minStart] at hm
      | cons s rest =>
        refine ⟨mkNormalized fc t0 s, rfl, ?_⟩
        rw [mkNormalized_x0]
        have h1 : t0 ≤ s.window_start :=
          minStart_le_of_mem hm (hsv ▸ List.mem_cons_self s rest)
        have h2 : s.window_start ≤ t0 := by
          obtain ⟨r0, hr0, hws⟩ := minStart_mem hm
          rw [hsv] at hr0
          rcases List.mem_cons.mp hr0 with hcase | hcase
          · rw [← hws, hcase]
          · have hs := sorted_survivors t.rows
            rw [hsv] at hs
            have := List.rel_of_sorted_cons hs r0 hcase
            rw [← hws]
            exact this
        omega

/-- Witness for C9 on the concrete two-row scenario. -/
theorem C9_offsets_nonneg_witness :
    (∀ nr ∈ (normCore "is_observed_strict" exTable.rows).rows, 0 ≤ nr.x0) ∧
    (∃ hd, (normCore "is_observed_strict" exTable.rows).rows.head? = some hd ∧
      hd.x0 = 0) :=
  C9_offsets_nonneg exTable "is_observed_strict" _ rfl (by decide)

/-- C7: if `window_start`, `window_end` or the chosen flag column is absent
from the schema, `normalize` halts with a schema error; the error is the
same whatever the rows are, so it is raised before any row is parsed or
processed and no partial output exists. -/
theorem C7_schema_error (cols : List String) (fc : String)
    (h : "window_start" ∉ cols ∨ "window_end" ∉ cols ∨ fc ∉ cols) :
    ∃ e, ∀ rows, normalize ⟨cols, rows⟩ fc = Except.error e := by
  by_cases hws : "window_start" ∈ cols
  · by_cases hwe : "window_end" ∈ cols
    · have hfc : fc ∉ cols := by
        rcases h with h | h | h
        · exact absurd hws h
        · exact absurd hwe h
        · exact h
      refine ⟨NormError.missingFlag fc, fun rows => ?_⟩
      have hmiss : requiredMissing cols = [] := by
        simp [requiredMissing, hws, hwe]
      simp [normalize, hmiss, hfc]
    · refine ⟨NormError.missingColumn (requiredMissing cols), fun rows => ?_⟩
      have hmiss : requiredMissing cols = ["window_end"] := by
        simp [requiredMissing, hws, hwe]
      simp [normalize, hmiss]
  · refine ⟨NormError.missingColumn (requiredMissing cols), fun rows => ?_⟩
    have hmiss : ∃ rest, requiredMissing cols = "window_start" :: rest := by
      simp [requiredMissing, hws]
    obtain ⟨rest, hrest⟩ := hmiss
    simp [normalize, hrest]

/-- Witness for C7: a schema missing `window_end` (specification §8,
property 7). -/
theorem C7_schema_error_witness :
    ∃ e, ∀ rows,
      normalize ⟨["window_start", "is_observed_strict"], rows⟩ "is_observed_strict" =
        Except.error e :=
  C7_schema_error ["window_start", "is_observed_strict"] "is_observed_strict" (by decide)

/-- Dropping the unparseable rows removes exactly their number from the
count of rows. -/
theorem length_filterMap_parseRow (rows : List RawRow) :
    (rows.filterMap parseRow).length =
      rows.length - (rows.filter (fun r => decide (parseRow r = none))).length := by
  induction rows with
  | nil => rfl
  | cons r rs ih =>
    have hle : (rs.filter (fun r => decide (parseRow r = none))).length ≤ rs.length :=
      List.length_filter_le _ _
    cases hp : parseRow r with
    | none => simp [hp, ih]
    | some p =>
      simp [hp, ih]
      omega

/-- C8: rows whose `window_start` or `window_end` fails to parse are
silently dropped: when the schema checks pass, `normalize` succeeds (no
error is raised) and the reported total equals the number of input rows
minus exactly the number of unparseable rows. -/
theorem C8_silent_drop (t : RawTable) (fc : String)
    (hws : "window_start" ∈ t.cols) (hwe : "window_end" ∈ t.cols)
    (hfc : fc ∈ t.cols) :
    ∃ res, normalize t fc = Except.ok res ∧
      res.total = t.rows.length -
        (t.rows.filter (fun r =>
          decide (toDatetime r.window_start = none ∨
            toDatetime r.window_end = none))).length := by
  refine ⟨normCore fc t.rows, normalize_eq_ok t fc hws hwe hfc, ?_⟩
  rw [normCore_total]
  have hlen : (survivors t.rows).length = (t.rows.filterMap parseRow).length :=
    List.length_insertionSort startLE (t.rows.filterMap parseRow)
  rw [hlen, length_filterMap_parseRow]
  have hfilter :
      t.rows.filter (fun r => decide (parseRow r = none)) =
        t.rows.filter (fun r =>
          decide (toDatetime r.window_start = none ∨ toDatetime r.window_end = none)) := by
    apply List.filter_congr
    intro r _
    exact decide_eq_decide.mpr (parseRow_eq_none_iff r)
  rw [hfilter]

/-- Input table with one well-formed row and one row whose `window_start` is
the empty string, hence unparseable (specification §8, property 8). -/
def exTableBad : RawTable :=
  { cols := ["window_start", "window_end", "is_observed_strict"],
    rows := [⟨"2026-01-20T10:00:00Z", "2026-01-20T10:00:05Z", .boolean true⟩,
             ⟨"", "2026-01-20T10:00:08Z", .boolean true⟩] }

/-- Witness for C8 on a table with one unparseable row. -/
theorem C8_silent_drop_witness :
    ∃ res, normalize exTableBad "is_observed_strict" = Except.ok res ∧
      res.total = exTableBad.rows.length -
        (exTableBad.rows.filter (fun r =>
          decide (toDatetime r.window_start = none ∨
            toDatetime r.window_end = none))).length :=
  C8_silent_drop exTableBad "is_observed_strict" (by decide) (by decide) (by decide)

/-- C10: a surviving row whose flag cell is a missing value (`NaN`) is
neither dropped nor an error: its boolean coercion is `True`, so the row
comes out with `observed = True` for every flag column name other than
`is_outside_observation`, and `observed = False` for that one. -/
theorem C10_nan_flag (t : RawTable) (fc : String) (r : RawRow) (p : ParsedRow)
    (hws : "window_start" ∈ t.cols) (hwe : "window_end" ∈ t.cols)
    (hfc : fc ∈ t.cols) (hr : r ∈ t.rows) (hflag : r.flag = FlagValue.nanVal)
    (hp : parseRow r = some p) :
    ∃ res, normalize t fc = Except.ok res ∧ ∃ nr ∈ res.rows,
      nr.window_start = p.window_start ∧ nr.window_end = p.window_end ∧
      nr.flag = FlagValue.nanVal ∧
      nr.observed = (if fc = "is_outside_observation" then false else true) := by
  refine ⟨normCore fc t.rows, normalize_eq_ok t fc hws hwe hfc, ?_⟩
  have hpmem : p ∈ t.rows.filterMap parseRow := List.mem_filterMap.mpr ⟨r, hr, hp⟩
  have hsmem : p ∈ survivors t.rows := by
    unfold survivors sortByStart
    exact (List.mem_insertionSort startLE).mpr hpmem
  have hpf : p.flag = FlagValue.nanVal := (parseRow_flag hp).trans hflag
  cases hm : minStart (survivors t.rows) with
  | none =>
    have hnil := (minStart_eq_none_iff _).mp hm
    rw [hnil] at hsmem
    cases hsmem
  | some t0 =>
    refine ⟨mkNormalized fc t0 p, ?_, rfl, rfl, ?_, ?_⟩
    · rw [normCore_rows_some fc hm]
      exact List.mem_map_of_mem _ hsmem
    · rw [mkNormalized_flag, hpf]
    · rw [mkNormalized_observed, hpf]
      by_cases hfo : fc = "is_outside_observation" <;>
        simp [observedOf, hfo, astype_bool]

/-- Input table whose only row has a missing (`NaN`) flag cell. -/
def exTableNan : RawTable :=
  { cols := ["window_start", "window_end", "is_observed"],
    rows := [⟨"2026-01-20T10:00:00Z", "2026-01-20T10:00:05Z", .nanVal⟩] }

/-- Witness for C10 on a table whose row carries a `NaN` flag under the
column name `is_observed`. -/
theorem C10_nan_flag_witness :
    ∃ res, normalize exTableNan "is_observed" = Except.ok res ∧ ∃ nr ∈ res.rows,
      nr.window_start = (1768903200 : ℤ) ∧ nr.window_end = (1768903205 : ℤ) ∧
      nr.flag = FlagValue.nanVal ∧
      nr.observed = (if "is_observed" = "is_outside_observation" then false else true) :=
  C10_nan_flag exTableNan "is_observed"
    ⟨"2026-01-20T10:00:00Z", "2026-01-20T10:00:05Z", FlagValue.nanVal⟩
    ⟨1768903200, 1768903205, FlagValue.nanVal⟩
    (by decide) (by decide) (by decide) (by decide) rfl (by decide)

end AppBoundary
